import Mathlib

/-!
Shallow embedding of the finished-document model (`src/doc.rs`): the
`Frame`/`Element`/`Group` tree and its mutation algebra, the `Text`/`Glyph`
run, the `Lang` codec and the `Meta` fold.  Absolute lengths (`Abs`) and
font-relative lengths (`Em`) are modelled as rationals.  The reference-counted
element buffer (`Arc<Vec<(Point, Element)>>`) is modelled twice: a pure model
where a frame directly holds its element list (the observable contents of the
`Arc`), and an explicit store model (`Store`/`RcFrame`) where frames hold a
buffer id and reference counts are tracked, faithfully reflecting
`Arc::make_mut` / `Arc::strong_count` for the copy-on-write claims.
-/

namespace Typst

/-- Modelled from the spec: a point from the external geometry library
(`crate::geom::Point`), a pair of absolute lengths. -/
structure Point where
  x : ℚ
  y : ℚ
deriving DecidableEq, Repr

/-- The origin, `Point::zero()`. -/
def Point.zero : Point := ⟨0, 0⟩

instance : Add Point := ⟨fun p q => ⟨p.x + q.x, p.y + q.y⟩⟩

/-- Whether both components are zero (`Numeric::is_zero`). -/
def Point.is_zero (p : Point) : Bool := decide (p.x = 0 ∧ p.y = 0)

/-- Modelled from the spec: a pair of values, one per axis
(`crate::geom::Axes`). -/
structure Axes (α : Type) where
  x : α
  y : α
deriving DecidableEq, Repr

/-- A size (`crate::geom::Size = Axes<Abs>`). -/
abbrev Size := Axes ℚ

/-- Modelled from the spec: an alignment along one axis
("centered, start, end"); `position` applied to the slack on an axis gives
the translation offset for that axis: start maps to zero, center to half the
extent, end to the full extent. -/
inductive Align where
  | start : Align
  | center : Align
  | total : Align
deriving DecidableEq, Repr

/-- Modelled from the spec: the offset an alignment assigns inside some free
extent. -/
def Align.position (a : Align) (extent : ℚ) : ℚ :=
  match a with
  | .start => 0
  | .center => extent / 2
  | .total => extent

/-- Modelled from the spec: an affine transform from the external geometry
library (`crate::geom::Transform`); only its identity value and structural
equality matter here. -/
structure Transform where
  sx : ℚ
  ky : ℚ
  kx : ℚ
  sy : ℚ
  tx : ℚ
  ty : ℚ
deriving DecidableEq, Repr

/-- The identity transform (`Transform::identity()`). -/
def Transform.identity : Transform := ⟨1, 0, 0, 1, 0, 0⟩

/-- Modelled from the spec: a writing direction (`crate::geom::Dir`). -/
inductive Dir where
  | ltr : Dir
  | rtl : Dir
deriving DecidableEq, Repr

/-- Modelled from the spec: an opaque font resource (`crate::font::Font`). -/
structure Font where
  id : Nat
deriving DecidableEq, Repr

/-- Modelled from the spec: an opaque paint (`crate::geom::Paint`). -/
structure Paint where
  id : Nat
deriving DecidableEq, Repr

/-- Modelled from the spec: an opaque geometric shape
(`crate::geom::Shape`). -/
structure Shape where
  id : Nat
deriving DecidableEq, Repr

/-- Modelled from the spec: an opaque image resource
(`crate::image::Image`). -/
structure Image where
  id : Nat
deriving DecidableEq, Repr

/-- Modelled from the spec: an opaque stable content identifier
(`crate::model::StableId`). -/
structure StableId where
  id : Nat
deriving DecidableEq, Repr

/-- Modelled from the spec: an opaque content reference
(`crate::model::Content`). -/
structure Content where
  id : Nat
deriving DecidableEq, Repr

/-- Lowercase an ASCII character (`u8::make_ascii_lowercase`). -/
def asciiLowercase (c : Char) : Char :=
  if 65 ≤ c.toNat ∧ c.toNat ≤ 90 then Char.ofNat (c.toNat + 32) else c

/-- Whether a character is ASCII (`str::is_ascii`, code below 128). -/
def isAscii (c : Char) : Bool := decide (c.toNat < 128)

/-- An identifier for a natural language: three code units padded with
spaces plus the significant length (`Lang([u8; 3], u8)`). -/
structure Lang where
  code : List Char
  len : Nat
deriving DecidableEq, Repr

/-- Return the language code as an all lowercase string (`Lang::as_str`). -/
def Lang.as_str (l : Lang) : String := String.mk (l.code.take l.len)

/-- Construct a language from a two- or three-character ISO 639-1/2/3 code
(`impl FromStr for Lang`): the input must have length two or three and be all
ASCII; it is lowercased and padded with spaces to three code units. -/
def Lang.from_str (iso : String) : Except String Lang :=
  let len := iso.data.length
  if (len = 2 ∨ len = 3) ∧ iso.data.all isAscii then
    .ok ⟨iso.data.map asciiLowercase ++ List.replicate (3 - len) ' ', len⟩
  else
    .error "expected two or three letter language code (ISO 639-1/2/3)"

/-- The default direction for the language (`Lang::dir`). -/
def Lang.dir (l : Lang) : Dir :=
  match l.as_str with
  | "ar" | "dv" | "fa" | "he" | "ks" | "pa" | "ps" | "sd" | "ug" | "ur"
  | "yi" => .rtl
  | _ => .ltr

/-- A glyph in a run of shaped text (`Glyph`); advance and offset are in
font-relative em units. -/
structure Glyph where
  id : Nat
  x_advance : ℚ
  x_offset : ℚ
  c : Char
deriving DecidableEq, Repr

/-- A run of shaped text (`Text`). -/
structure Text where
  font : Font
  size : ℚ
  fill : Paint
  lang : Lang
  glyphs : List Glyph
deriving DecidableEq, Repr

/-- Modelled from the spec: conversion of a font-relative em length to an
absolute length at a given font size (`Em::at`): multiply by the font
size. -/
def emAt (em : ℚ) (size : ℚ) : ℚ := em * size

/-- The width of the text run (`Text::width`): the sum of the glyph advances
converted to an absolute length at the run's font size. -/
def Text.width (t : Text) : ℚ :=
  emAt ((t.glyphs.map fun g => g.x_advance).sum) t.size

/-- A physical location in a document (`Location`); the page is 1-based. -/
structure Location where
  page : {n : Nat // 0 < n}
  pos : Point
deriving DecidableEq

/-- A link destination (`Destination`). -/
inductive Destination where
  | internal : Location → Destination
  | url : String → Destination
deriving DecidableEq

/-- Meta information that isn't visible or renderable (`Meta`). -/
inductive Meta where
  | link : Destination → Meta
  | node : StableId → Content → Meta
deriving DecidableEq

/-- Folding of metadata lists (`impl Fold for Vec<Meta>`): the inner list is
extended with the outer one. -/
def Meta.fold (inner outer : List Meta) : List Meta := inner ++ outer

mutual

/-- A finished layout (`Frame`): a size, an optional baseline measured from
the top, and the elements with their positions.  The pure model holds the
observable contents of the shared element buffer directly. -/
inductive Frame where
  | mk : Size → Option ℚ → List (Point × Element) → Frame

/-- The building block frames are composed of (`Element`). -/
inductive Element where
  | group : Group → Element
  | text : Text → Element
  | shape : Shape → Element
  | image : Image → Size → Element
  | meta : Meta → Size → Element

/-- A group of elements with optional clipping (`Group`). -/
inductive Group where
  | mk : Frame → Transform → Bool → Group

end

/-- The size of the frame (`Frame::size`). -/
def Frame.size : Frame → Size
  | .mk s _ _ => s

/-- The raw optional baseline field of the frame. -/
def Frame.baselineField : Frame → Option ℚ
  | .mk _ b _ => b

/-- The elements of the frame with their positions (`Frame::elements`). -/
def Frame.elements : Frame → List (Point × Element)
  | .mk _ _ es => es

/-- The frame with its element list replaced. -/
def Frame.withElements : Frame → List (Point × Element) → Frame
  | .mk s b _, es => .mk s b es

/-- Create a new, empty frame (`Frame::new`). -/
def Frame.new (size : Size) : Frame := .mk size none []

/-- Whether the frame contains no elements (`Frame::is_empty`). -/
def Frame.is_empty (f : Frame) : Bool := f.elements.isEmpty

/-- The width of the frame (`Frame::width`). -/
def Frame.width (f : Frame) : ℚ := f.size.x

/-- The height of the frame (`Frame::height`). -/
def Frame.height (f : Frame) : ℚ := f.size.y

/-- The baseline of the frame (`Frame::baseline`): the set baseline, or the
height when none is set. -/
def Frame.baseline (f : Frame) : ℚ := f.baselineField.getD f.size.y

/-- Set the frame's baseline from the top (`Frame::set_baseline`). -/
def Frame.set_baseline (f : Frame) (b : ℚ) : Frame :=
  .mk f.size (some b) f.elements

/-- The layer the next item will be added on (`Frame::layer`): the number of
elements in the frame. -/
def Frame.layer (f : Frame) : Nat := f.elements.length

/-- Add an element at a position in the foreground (`Frame::push`). -/
def Frame.push (f : Frame) (pos : Point) (e : Element) : Frame :=
  f.withElements (f.elements ++ [(pos, e)])

/-- Insert an element at the given layer (`Frame::insert`); the source panics
when the layer exceeds the element count, so the model is only meaningful for
layers within range. -/
def Frame.insert (f : Frame) (layer : Nat) (pos : Point) (e : Element) : Frame :=
  f.withElements (f.elements.take layer ++ [(pos, e)] ++ f.elements.drop layer)

/-- Add an element at a position in the background (`Frame::prepend`). -/
def Frame.prepend (f : Frame) (pos : Point) (e : Element) : Frame :=
  f.withElements ((pos, e) :: f.elements)

/-- Add multiple elements in the background (`Frame::prepend_multiple`): the
splice at `0..0` puts the first given element furthest back. -/
def Frame.prepend_multiple (f : Frame) (es : List (Point × Element)) : Frame :=
  f.withElements (es ++ f.elements)

/-- Create a new group with default settings (`Group::new`): identity
transform and no clipping. -/
def Group.new (frame : Frame) : Group := .mk frame Transform.identity false

/-- Whether the given frame should be inlined (`Frame::should_inline`): the
receiver is empty or the candidate holds at most 5 elements. -/
def Frame.should_inline (f : Frame) (frame : Frame) : Bool :=
  f.elements.isEmpty || decide (frame.elements.length ≤ 5)

/-- Inline a frame at the given layer (`Frame::inline`): when the position is
zero and the receiver empty, adopt the child's buffer; when the position is
zero, splice the child's elements in unchanged; otherwise splice them in with
every position shifted by the offset.  (The source's further distinction of a
uniquely owned child buffer only avoids copying and does not change the
contents.) -/
def Frame.inline (f : Frame) (layer : Nat) (pos : Point) (frame : Frame) : Frame :=
  if pos.is_zero ∧ f.elements.isEmpty then
    f.withElements frame.elements
  else if pos.is_zero then
    f.withElements
      (f.elements.take layer ++ frame.elements ++ f.elements.drop layer)
  else
    f.withElements
      (f.elements.take layer ++
        (frame.elements.map fun pe => (pe.1 + pos, pe.2)) ++
        f.elements.drop layer)

/-- Add a frame at a position in the foreground (`Frame::push_frame`):
inline it or wrap it in a group depending on `should_inline`. -/
def Frame.push_frame (f : Frame) (pos : Point) (frame : Frame) : Frame :=
  if f.should_inline frame then
    f.inline f.layer pos frame
  else
    f.push pos (.group (Group.new frame))

/-- Add a frame at a position in the background (`Frame::prepend_frame`). -/
def Frame.prepend_frame (f : Frame) (pos : Point) (frame : Frame) : Frame :=
  if f.should_inline frame then
    f.inline 0 pos frame
  else
    f.prepend pos (.group (Group.new frame))

/-- Remove all elements from the frame (`Frame::clear`); in the pure model
both branches leave an empty element list. -/
def Frame.clear (f : Frame) : Frame := f.withElements []

/-- Move the baseline and contents of the frame by an offset
(`Frame::translate`): a no-op for the zero offset; otherwise the set baseline
shifts by the y-component and every element position by the full offset. -/
def Frame.translate (f : Frame) (offset : Point) : Frame :=
  if offset.is_zero then f
  else
    .mk f.size (f.baselineField.map fun b => b + offset.y)
      (f.elements.map fun pe => (pe.1 + offset, pe.2))

/-- Resize the frame to a new size (`Frame::resize`), distributing the slack
on each axis according to the alignments and translating the contents by the
resulting offset. -/
def Frame.resize (f : Frame) (target : Size) (aligns : Axes Align) : Frame :=
  if f.size ≠ target then
    let offset : Point :=
      ⟨aligns.x.position (target.x - f.size.x),
       aligns.y.position (target.y - f.size.y)⟩
    (Frame.mk target f.baselineField f.elements).translate offset
  else f

/-- Wrap the frame's contents in a group and modify that group
(`Frame::group`): a fresh frame of the same size and baseline whose sole
element is the modified group around the old frame, at the origin. -/
def Frame.group (f : Frame) (g : Group → Group) : Frame :=
  .mk f.size f.baselineField [(Point.zero, .group (g (Group.new f)))]

/-- The group's frame (`Group::frame`). -/
def Group.frame : Group → Frame
  | .mk fr _ _ => fr

/-- The group's transform field. -/
def Group.transformField : Group → Transform
  | .mk _ t _ => t

/-- Whether the group clips (`Group::clips`). -/
def Group.clips : Group → Bool
  | .mk _ _ c => c

/-- The group with its transform replaced. -/
def Group.withTransform : Group → Transform → Group
  | .mk fr _ c, t => .mk fr t c

/-- The group with its clip flag replaced. -/
def Group.withClips : Group → Bool → Group
  | .mk fr t _, c => .mk fr t c

/-- Arbitrarily transform the contents of the frame (`Frame::transform`):
wrap them in a group carrying the transform. -/
def Frame.transform (f : Frame) (t : Transform) : Frame :=
  f.group fun g => g.withTransform t

/-- Clip the contents of the frame to its size (`Frame::clip`): wrap them in
a group with the clip flag set. -/
def Frame.clip (f : Frame) : Frame :=
  f.group fun g => g.withClips true

/-- English, `Lang::ENGLISH` (`Self(*b"en ", 2)`). -/
def Lang.ENGLISH : Lang := ⟨['e', 'n', ' '], 2⟩

/-- A store of reference-counted element buffers: the contents and strong
count of every buffer id, and the next fresh id.  This models the
`Arc<Vec<(Point, Element)>>` heap explicitly; ids at or above `next` are
unallocated. -/
structure Store where
  bufs : Nat → List (Point × Element)
  rc : Nat → Nat
  next : Nat

/-- A frame whose element buffer lives in a store: the faithful view of
`Frame { size, baseline, elements: Arc<..> }` with the `Arc` as a buffer
id. -/
structure RcFrame where
  size : Size
  baseline : Option ℚ
  buf : Nat

/-- The element sequence a frame observes through its buffer. -/
def Store.observe (w : Store) (f : RcFrame) : List (Point × Element) :=
  w.bufs f.buf

/-- Replace the contents of one buffer in place (the uniquely-owned branch of
`Arc::make_mut`). -/
def Store.setBuf (w : Store) (i : Nat) (es : List (Point × Element)) : Store :=
  { w with bufs := fun j => if j = i then es else w.bufs j }

/-- Allocate a fresh buffer holding the given contents while releasing one
reference to the old buffer (the cloning branch of `Arc::make_mut`, and
`Arc::new` replacing an old arc): the fresh id gets count one and the old
buffer's count drops by one. -/
def Store.alloc (w : Store) (old : Nat) (es : List (Point × Element)) :
    Store × Nat :=
  (⟨fun j => if j = w.next then es else w.bufs j,
    fun j => if j = w.next then 1
      else if j = old then w.rc j - 1 else w.rc j,
    w.next + 1⟩, w.next)

/-- Update a frame's buffer contents with `Arc::make_mut` semantics: mutate
in place when the strong count is one, otherwise clone into a fresh buffer
and point the frame there. -/
def RcFrame.makeMutWith (f : RcFrame) (w : Store)
    (upd : List (Point × Element) → List (Point × Element)) :
    Store × RcFrame :=
  if w.rc f.buf = 1 then
    (w.setBuf f.buf (upd (w.bufs f.buf)), f)
  else
    let a := w.alloc f.buf (upd (w.bufs f.buf))
    (a.1, { f with buf := a.2 })

/-- `Frame::push` in the store model: `Arc::make_mut(..).push((pos, e))`. -/
def RcFrame.push (f : RcFrame) (w : Store) (pos : Point) (e : Element) :
    Store × RcFrame :=
  f.makeMutWith w fun es => es ++ [(pos, e)]

/-- `Frame::clear` in the store model: clear in place when the strong count
is one, otherwise point at a fresh empty buffer (dropping the old arc). -/
def RcFrame.clear (f : RcFrame) (w : Store) : Store × RcFrame :=
  if w.rc f.buf = 1 then
    (w.setBuf f.buf [], f)
  else
    let a := w.alloc f.buf []
    (a.1, { f with buf := a.2 })

/-- `Frame::translate` in the store model: a no-op for the zero offset;
otherwise shift the set baseline by the y-component and every element
position, via `Arc::make_mut`, by the offset. -/
def RcFrame.translate (f : RcFrame) (w : Store) (offset : Point) :
    Store × RcFrame :=
  if offset.is_zero then (w, f)
  else
    RcFrame.makeMutWith
      { f with baseline := f.baseline.map fun b => b + offset.y } w
      fun es => es.map fun pe => (pe.1 + offset, pe.2)

/-- A concrete store for witnesses: every buffer empty, every count two. -/
def w0 : Store := ⟨fun _ => [], fun _ => 2, 1⟩

/-- A concrete frame for witnesses, observing buffer 0 of `w0`. -/
def f0 : RcFrame := ⟨⟨0, 0⟩, none, 0⟩

/-- A concrete non-empty parent frame for witnesses. -/
def parentW : Frame := Frame.mk ⟨5, 5⟩ none [(Point.zero, .shape ⟨0⟩)]

/-- A concrete two-element child frame for witnesses. -/
def childSmall : Frame :=
  Frame.mk ⟨1, 1⟩ none [(Point.zero, .shape ⟨1⟩), (Point.zero, .shape ⟨2⟩)]

/-- A concrete six-element child frame for witnesses. -/
def childBig : Frame :=
  Frame.mk ⟨1, 1⟩ none (List.replicate 6 (Point.zero, .shape ⟨3⟩))

/-- A concrete one-element frame for witnesses. -/
def frameW : Frame := Frame.mk ⟨3, 4⟩ none [(⟨1, 1⟩, .shape ⟨0⟩)]

theorem Point.is_zero_iff (p : Point) : p.is_zero = true ↔ p = ⟨0, 0⟩ := by
  cases p
  simp [Point.is_zero, Point.mk.injEq]

theorem Point.add_zero_right (p : Point) : p + (⟨0, 0⟩ : Point) = p := by
  cases p
  show Point.mk _ _ = _
  simp

theorem Frame.size_mk (s : Size) (b : Option ℚ) (es : List (Point × Element)) :
    (Frame.mk s b es).size = s := rfl

theorem Frame.baselineField_mk (s : Size) (b : Option ℚ)
    (es : List (Point × Element)) : (Frame.mk s b es).baselineField = b := rfl

theorem Frame.elements_mk (s : Size) (b : Option ℚ)
    (es : List (Point × Element)) : (Frame.mk s b es).elements = es := rfl

theorem Frame.size_withElements (f : Frame) (es : List (Point × Element)) :
    (f.withElements es).size = f.size := by
  cases f
  rfl

theorem Frame.baselineField_withElements (f : Frame)
    (es : List (Point × Element)) :
    (f.withElements es).baselineField = f.baselineField := by
  cases f
  rfl

theorem Frame.elements_withElements (f : Frame) (es : List (Point × Element)) :
    (f.withElements es).elements = es := by
  cases f
  rfl

/-- C3 counterexample: parsing "12" does not fail.  The parser validates only
the length (two or three) and that the input is ASCII, so the two-digit
string "12" is accepted. -/
theorem lang_digits_accepted : Lang.from_str "12" = .ok ⟨['1', '2', ' '], 2⟩ :=
  rfl

/-- C3 (amended): parsing "EN" yields a value whose as_str is "en"; parsing
"e" or "english" fails with the descriptive error; parsing "12" succeeds
(only length and ASCII are validated) and yields as_str "12"; the direction
of the value parsed from "ar" is right-to-left and from "en" left-to-right. -/
theorem lang_parse_spec :
    Lang.from_str "EN" = .ok ⟨['e', 'n', ' '], 2⟩ ∧
    Lang.as_str ⟨['e', 'n', ' '], 2⟩ = "en" ∧
    Lang.from_str "e" =
      .error "expected two or three letter language code (ISO 639-1/2/3)" ∧
    Lang.from_str "english" =
      .error "expected two or three letter language code (ISO 639-1/2/3)" ∧
    Lang.from_str "12" = .ok ⟨['1', '2', ' '], 2⟩ ∧
    Lang.as_str ⟨['1', '2', ' '], 2⟩ = "12" ∧
    Lang.from_str "ar" = .ok ⟨['a', 'r', ' '], 2⟩ ∧
    Lang.dir ⟨['a', 'r', ' '], 2⟩ = .rtl ∧
    Lang.dir ⟨['e', 'n', ' '], 2⟩ = .ltr := by
  refine ⟨rfl, by decide, rfl, rfl, rfl, by decide, rfl, by decide, by decide⟩

/-- C7: metadata folding concatenates the inner list before the outer list;
the length is the sum of the lengths and membership is preserved from both
sides (nothing is discarded); in particular folding [A] with [B] yields
[A, B]. -/
theorem meta_fold_spec (xs ys : List Meta) (A B : Meta) :
    Meta.fold xs ys = xs ++ ys ∧
    (Meta.fold xs ys).length = xs.length + ys.length ∧
    (∀ m : Meta, m ∈ Meta.fold xs ys ↔ m ∈ xs ∨ m ∈ ys) ∧
    Meta.fold [A] [B] = [A, B] := by
  refine ⟨rfl, by simp [Meta.fold], fun m => by simp [Meta.fold], rfl⟩

/-- C8: a text run's width is the sum of the glyph x-advances converted to an
absolute length at the run's font size; concretely, two glyphs of advances
1/2 and 3/10 at font size 10 give width 8, and a run with no glyphs has
width 0. -/
theorem text_width_spec (t : Text) :
    t.width = ((t.glyphs.map fun g => g.x_advance).sum) * t.size ∧
    (Text.mk ⟨0⟩ 10 ⟨0⟩ Lang.ENGLISH
      [⟨0, 1/2, 0, 'a'⟩, ⟨1, 3/10, 0, 'b'⟩]).width = 8 ∧
    (Text.mk ⟨0⟩ 10 ⟨0⟩ Lang.ENGLISH []).width = 0 := by
  refine ⟨rfl, by norm_num [Text.width, emAt], by norm_num [Text.width, emAt]⟩

/-- C6: clipping a frame turns its contents into the single element list
holding one group at the origin with the clip flag set and the whole prior
frame as its child, and transforming does the same with the given transform;
both leave the outer size and baseline unchanged. -/
theorem clip_transform_spec (f : Frame) (t : Transform) :
    f.clip.elements =
      [(Point.zero, .group (.mk f Transform.identity true))] ∧
    f.clip.size = f.size ∧
    f.clip.baselineField = f.baselineField ∧
    (f.transform t).elements = [(Point.zero, .group (.mk f t false))] ∧
    (f.transform t).size = f.size ∧
    (f.transform t).baselineField = f.baselineField :=
  ⟨rfl, rfl, rfl, rfl, rfl, rfl⟩

/-- C9: a frame with no set baseline reports its height (size.y) as
baseline, and setting baseline h then translating by (0, d) yields baseline
h + d. -/
theorem baseline_spec (f : Frame) (h d : ℚ) :
    (f.baselineField = none → f.baseline = f.size.y) ∧
    ((f.set_baseline h).translate ⟨0, d⟩).baseline = h + d := by
  constructor
  · intro hb
    simp [Frame.baseline, hb]
  · by_cases hd : d = 0
    · subst hd
      simp [Frame.translate, Point.is_zero, Frame.set_baseline, Frame.baseline,
        Frame.baselineField_mk, Frame.size_mk]
    · simp [Frame.translate, Point.is_zero, hd, Frame.set_baseline,
        Frame.baseline, Frame.baselineField_mk, Frame.size_mk]

/-- Witness for C9 at a concrete frame: height 2 as default baseline, and
baseline 3 translated by (0, 4) reports 7. -/
theorem baseline_spec_witness :
    (Frame.new ⟨1, 2⟩).baseline = (Frame.new ⟨1, 2⟩).size.y ∧
    (((Frame.new ⟨1, 2⟩).set_baseline 3).translate ⟨0, 4⟩).baseline = 3 + 4 :=
  ⟨(baseline_spec (Frame.new ⟨1, 2⟩) 3 4).1 rfl,
   (baseline_spec (Frame.new ⟨1, 2⟩) 3 4).2⟩

theorem Frame.translate_size (f : Frame) (off : Point) :
    (f.translate off).size = f.size := by
  unfold Frame.translate
  split
  · rfl
  · rfl

theorem Frame.translate_elements (f : Frame) (off : Point) :
    (f.translate off).elements = f.elements.map fun pe => (pe.1 + off, pe.2) := by
  unfold Frame.translate
  split
  · next hz =>
    have h0 := (Point.is_zero_iff off).mp hz
    subst h0
    simp [Point.add_zero_right]
  · rfl

theorem Frame.translate_baselineField (f : Frame) (off : Point) :
    (f.translate off).baselineField = f.baselineField.map fun b => b + off.y := by
  unfold Frame.translate
  split
  · next hz =>
    have h0 := (Point.is_zero_iff off).mp hz
    subst h0
    simp
  · rfl

/-- C4: translating by the zero offset is a no-op — in the store model not
even a clone of a shared buffer happens — and translating by a non-zero
offset leaves the size unchanged, shifts the set baseline by the
y-component, and shifts every element position by the full offset. -/
theorem translate_spec (f : Frame) (off : Point) :
    (off.is_zero = true → f.translate off = f) ∧
    (∀ (w : Store) (g : RcFrame), g.translate w Point.zero = (w, g)) ∧
    (off.is_zero = false →
      (f.translate off).size = f.size ∧
      (f.translate off).baselineField = f.baselineField.map (fun b => b + off.y) ∧
      (f.translate off).elements = f.elements.map fun pe => (pe.1 + off, pe.2)) := by
  refine ⟨?_, ?_, ?_⟩
  · intro hz
    simp [Frame.translate, hz]
  · intro w g
    simp [RcFrame.translate, Point.is_zero, Point.zero]
  · intro _
    exact ⟨Frame.translate_size f off, Frame.translate_baselineField f off,
      Frame.translate_elements f off⟩

/-- Witness for C4 at a concrete frame: the zero translation is the
identity, and a (1, 2) translation shifts the element position. -/
theorem translate_spec_witness :
    frameW.translate ⟨0, 0⟩ = frameW ∧
    (frameW.translate ⟨1, 2⟩).elements =
      frameW.elements.map (fun pe => (pe.1 + ⟨1, 2⟩, pe.2)) :=
  ⟨(translate_spec frameW ⟨0, 0⟩).1 (by decide),
   ((translate_spec frameW ⟨1, 2⟩).2.2 (by decide)).2.2⟩

/-- C5: resizing a frame to a different target size sets the size to the
target and shifts every element position, per axis, by the alignment's
position applied to the slack; on a slack of 10 per axis, center alignment
shifts by 5, start by 0 and end by 10. -/
theorem resize_spec (f : Frame) (target : Size) (aligns : Axes Align)
    (hne : f.size ≠ target) :
    (f.resize target aligns).size = target ∧
    (f.resize target aligns).elements = f.elements.map
      (fun pe => (pe.1 + ⟨aligns.x.position (target.x - f.size.x),
                          aligns.y.position (target.y - f.size.y)⟩, pe.2)) ∧
    Align.center.position (20 - 10) = 5 ∧
    Align.start.position (20 - 10) = 0 ∧
    Align.total.position (20 - 10) = 10 := by
  have hres : f.resize target aligns =
      (Frame.mk target f.baselineField f.elements).translate
        ⟨aligns.x.position (target.x - f.size.x),
         aligns.y.position (target.y - f.size.y)⟩ := by
    unfold Frame.resize
    rw [if_pos hne]
  refine ⟨?_, ?_, by norm_num [Align.position], by norm_num [Align.position],
    by norm_num [Align.position]⟩
  · rw [hres, Frame.translate_size]
    rfl
  · rw [hres, Frame.translate_elements]
    rfl

/-- Witness for C5: a frame of size (10, 10) with one element at (1, 1)
resized to (20, 20) under center/center alignment gets size (20, 20) and the
element moves by (5, 5). -/
theorem resize_spec_witness :
    ((Frame.mk ⟨10, 10⟩ none [(⟨1, 1⟩, .shape ⟨0⟩)]).resize ⟨20, 20⟩
      ⟨.center, .center⟩).size = ⟨20, 20⟩ ∧
    ((Frame.mk ⟨10, 10⟩ none [(⟨1, 1⟩, .shape ⟨0⟩)]).resize ⟨20, 20⟩
      ⟨.center, .center⟩).elements =
      [(⟨1, 1⟩, .shape ⟨0⟩)].map
        (fun pe => (pe.1 + ⟨Align.center.position (20 - 10),
                            Align.center.position (20 - 10)⟩, pe.2)) :=
  ⟨(resize_spec (Frame.mk ⟨10, 10⟩ none [(⟨1, 1⟩, .shape ⟨0⟩)]) ⟨20, 20⟩
      ⟨.center, .center⟩ (by decide)).1,
   (resize_spec (Frame.mk ⟨10, 10⟩ none [(⟨1, 1⟩, .shape ⟨0⟩)]) ⟨20, 20⟩
      ⟨.center, .center⟩ (by decide)).2.1⟩

theorem Frame.inline_elements (f : Frame) (layer : Nat) (pos : Point)
    (fr : Frame) :
    (f.inline layer pos fr).elements =
      f.elements.take layer ++
        (if pos.is_zero then fr.elements
         else fr.elements.map fun pe => (pe.1 + pos, pe.2)) ++
      f.elements.drop layer := by
  unfold Frame.inline
  split
  · next hcond =>
    obtain ⟨hz, he⟩ := hcond
    rw [List.isEmpty_iff] at he
    simp [Frame.elements_withElements, he, hz]
  · split
    · next hz => simp [Frame.elements_withElements, hz]
    · next hz => simp [Frame.elements_withElements, hz]

theorem Frame.should_inline_true (f fr : Frame)
    (h : f.elements = [] ∨ fr.elements.length ≤ 5) :
    f.should_inline fr = true := by
  unfold Frame.should_inline
  rcases h with h | h
  · simp [List.isEmpty_iff, h]
  · simp [h]

theorem Frame.should_inline_false (f fr : Frame) (h1 : f.elements ≠ [])
    (h2 : 5 < fr.elements.length) : f.should_inline fr = false := by
  unfold Frame.should_inline
  rw [Bool.or_eq_false_iff]
  constructor
  · simpa [List.isEmpty_iff] using h1
  · simpa using Nat.not_le.mpr h2

/-- C1: push_frame and prepend_frame inline the child's elements (shifted by
the position unless it is zero) exactly when the parent is empty or the
child has at most five elements, and otherwise add exactly one group element
wrapping the child; hence with at most five child elements the element count
grows by the child's count, and with more than five (and a non-empty parent)
by exactly one. -/
theorem push_frame_spec (parent child : Frame) (pos : Point) :
    ((parent.elements = [] ∨ child.elements.length ≤ 5) →
      (parent.push_frame pos child).elements =
        parent.elements ++ (if pos.is_zero then child.elements
          else child.elements.map fun pe => (pe.1 + pos, pe.2)) ∧
      (parent.prepend_frame pos child).elements =
        (if pos.is_zero then child.elements
          else child.elements.map fun pe => (pe.1 + pos, pe.2)) ++
          parent.elements ∧
      (parent.push_frame pos child).layer = parent.layer + child.layer ∧
      (parent.prepend_frame pos child).layer = parent.layer + child.layer) ∧
    (parent.elements ≠ [] → 5 < child.elements.length →
      (parent.push_frame pos child).elements =
        parent.elements ++ [(pos, .group (Group.new child))] ∧
      (parent.prepend_frame pos child).elements =
        (pos, .group (Group.new child)) :: parent.elements ∧
      (parent.push_frame pos child).layer = parent.layer + 1 ∧
      (parent.prepend_frame pos child).layer = parent.layer + 1) := by
  constructor
  · intro hinl
    have hsi := Frame.should_inline_true parent child hinl
    have hpush : (parent.push_frame pos child).elements =
        parent.elements ++ (if pos.is_zero then child.elements
          else child.elements.map fun pe => (pe.1 + pos, pe.2)) := by
      have hp : parent.push_frame pos child =
          parent.inline parent.layer pos child := by
        simp [Frame.push_frame, hsi]
      rw [hp, Frame.inline_elements]
      simp [Frame.layer]
    have hpre : (parent.prepend_frame pos child).elements =
        (if pos.is_zero then child.elements
          else child.elements.map fun pe => (pe.1 + pos, pe.2)) ++
          parent.elements := by
      have hp : parent.prepend_frame pos child =
          parent.inline 0 pos child := by
        simp [Frame.prepend_frame, hsi]
      rw [hp, Frame.inline_elements]
      simp
    refine ⟨hpush, hpre, ?_, ?_⟩
    · unfold Frame.layer
      rw [hpush]
      by_cases hz : pos.is_zero <;> simp [hz]
    · unfold Frame.layer
      rw [hpre]
      by_cases hz : pos.is_zero <;> simp [hz, Nat.add_comm]
  · intro hne hlen
    have hsi := Frame.should_inline_false parent child hne hlen
    have hpush : (parent.push_frame pos child).elements =
        parent.elements ++ [(pos, .group (Group.new child))] := by
      have hp : parent.push_frame pos child =
          parent.push pos (.group (Group.new child)) := by
        simp [Frame.push_frame, hsi]
      rw [hp]
      exact Frame.elements_withElements parent _
    have hpre : (parent.prepend_frame pos child).elements =
        (pos, .group (Group.new child)) :: parent.elements := by
      have hp : parent.prepend_frame pos child =
          parent.prepend pos (.group (Group.new child)) := by
        simp [Frame.prepend_frame, hsi]
      rw [hp]
      exact Frame.elements_withElements parent _
    refine ⟨hpush, hpre, ?_, ?_⟩
    · unfold Frame.layer
      rw [hpush]
      simp
    · unfold Frame.layer
      rw [hpre]
      simp [Nat.add_comm]

/-- Witness for C1: pushing the two-element child into the non-empty
one-element parent grows the count by two; pushing the six-element child
grows it by one. -/
theorem push_frame_spec_witness :
    (parentW.push_frame Point.zero childSmall).layer =
      parentW.layer + childSmall.layer ∧
    (parentW.push_frame Point.zero childBig).layer = parentW.layer + 1 :=
  ⟨((push_frame_spec parentW childSmall Point.zero).1
      (Or.inr (by simp [childSmall, Frame.elements_mk]))).2.2.1,
   ((push_frame_spec parentW childBig Point.zero).2
      (by simp [parentW, Frame.elements_mk])
      (by simp [childBig, Frame.elements_mk])).2.2.1⟩

theorem Frame.inline_exists (f : Frame) (layer : Nat) (pos : Point)
    (fr : Frame) : ∃ es, f.inline layer pos fr = f.withElements es := by
  unfold Frame.inline
  split
  · exact ⟨_, rfl⟩
  · split
    · exact ⟨_, rfl⟩
    · exact ⟨_, rfl⟩

theorem Frame.push_frame_exists (f : Frame) (pos : Point) (fr : Frame) :
    ∃ es, f.push_frame pos fr = f.withElements es := by
  unfold Frame.push_frame
  split
  · exact Frame.inline_exists f f.layer pos fr
  · exact ⟨_, rfl⟩

theorem Frame.prepend_frame_exists (f : Frame) (pos : Point) (fr : Frame) :
    ∃ es, f.prepend_frame pos fr = f.withElements es := by
  unfold Frame.prepend_frame
  split
  · exact Frame.inline_exists f 0 pos fr
  · exact ⟨_, rfl⟩

theorem Frame.baseline_withElements (f : Frame) (es : List (Point × Element)) :
    (f.withElements es).baseline = f.baseline := by
  unfold Frame.baseline
  rw [Frame.baselineField_withElements, Frame.size_withElements]

/-- C10: every insertion operation — push, insert (within range), prepend,
prepend_multiple, push_frame and prepend_frame, in both the inlining and the
group branch — leaves the frame's size and baseline unchanged; only the
element sequence changes. -/
theorem insertion_preserves_geometry (f fr : Frame) (pos : Point)
    (e : Element) (es : List (Point × Element)) (layer : Nat)
    (hl : layer ≤ f.layer) :
    (f.push pos e).size = f.size ∧
    (f.push pos e).baseline = f.baseline ∧
    (f.insert layer pos e).size = f.size ∧
    (f.insert layer pos e).baseline = f.baseline ∧
    (f.prepend pos e).size = f.size ∧
    (f.prepend pos e).baseline = f.baseline ∧
    (f.prepend_multiple es).size = f.size ∧
    (f.prepend_multiple es).baseline = f.baseline ∧
    (f.push_frame pos fr).size = f.size ∧
    (f.push_frame pos fr).baseline = f.baseline ∧
    (f.prepend_frame pos fr).size = f.size ∧
    (f.prepend_frame pos fr).baseline = f.baseline := by
  obtain ⟨es1, h1⟩ := Frame.push_frame_exists f pos fr
  obtain ⟨es2, h2⟩ := Frame.prepend_frame_exists f pos fr
  exact ⟨Frame.size_withElements f _, Frame.baseline_withElements f _,
    Frame.size_withElements f _, Frame.baseline_withElements f _,
    Frame.size_withElements f _, Frame.baseline_withElements f _,
    Frame.size_withElements f _, Frame.baseline_withElements f _,
    h1 ▸ Frame.size_withElements f es1, h1 ▸ Frame.baseline_withElements f es1,
    h2 ▸ Frame.size_withElements f es2, h2 ▸ Frame.baseline_withElements f es2⟩

/-- Witness for C10 at a concrete frame, element and child: all insertions
preserve the size. -/
theorem insertion_preserves_geometry_witness :
    (parentW.push Point.zero (.shape ⟨7⟩)).size = parentW.size ∧
    (parentW.insert 0 Point.zero (.shape ⟨7⟩)).size = parentW.size ∧
    (parentW.push_frame Point.zero childBig).baseline = parentW.baseline :=
  ⟨(insertion_preserves_geometry parentW childBig Point.zero (.shape ⟨7⟩) []
      0 (Nat.zero_le _)).1,
   (insertion_preserves_geometry parentW childBig Point.zero (.shape ⟨7⟩) []
      0 (Nat.zero_le _)).2.2.1,
   (insertion_preserves_geometry parentW childBig Point.zero (.shape ⟨7⟩) []
      0 (Nat.zero_le _)).2.2.2.2.2.2.2.2.2.1⟩

/-- C2: copy-on-write isolation in the store model: when two frames share
the same allocated buffer (so its strong count is at least two), pushing an
element to the first, clearing it, or translating it never touches the
buffer the second observes — the second frame's observed element sequence is
unchanged (its size and baseline are immutable fields of the frame value
itself, untouched by any mutation of the first frame). -/
theorem cow_isolation (w : Store) (a b : RcFrame) (pos : Point) (e : Element)
    (off : Point) (hshare : a.buf = b.buf) (hrc : 2 ≤ w.rc a.buf)
    (hb : b.buf < w.next) :
    (a.push w pos e).1.observe b = w.observe b ∧
    (a.clear w).1.observe b = w.observe b ∧
    (a.translate w off).1.observe b = w.observe b := by
  have hno1 : ¬ w.rc a.buf = 1 := by omega
  have hbne : ¬ b.buf = w.next := Nat.ne_of_lt hb
  refine ⟨?_, ?_, ?_⟩
  · unfold RcFrame.push RcFrame.makeMutWith Store.alloc Store.observe
    rw [if_neg hno1]
    simp [hbne]
  · unfold RcFrame.clear Store.alloc Store.observe
    rw [if_neg hno1]
    simp [hbne]
  · unfold RcFrame.translate
    split
    · rfl
    · unfold RcFrame.makeMutWith Store.alloc Store.observe
      rw [if_neg hno1]
      simp [hbne]

/-- Witness for C2: in the concrete store `w0` the frame `f0` shares buffer
0 (count two); pushing, clearing and translating leave the observed buffer
unchanged. -/
theorem cow_isolation_witness :
    (f0.push w0 Point.zero (.shape ⟨0⟩)).1.observe f0 = w0.observe f0 ∧
    (f0.clear w0).1.observe f0 = w0.observe f0 ∧
    (f0.translate w0 ⟨1, 1⟩).1.observe f0 = w0.observe f0 :=
  cow_isolation w0 f0 f0 Point.zero (.shape ⟨0⟩) ⟨1, 1⟩ rfl (by decide)
    (by decide)

end Typst
